import Mathlib

/-!
Shallow embedding of the Flask todo service in `src/app.py`.

Modelling conventions:
* SQL timestamps are `Nat`; the "current server clock" `datetime.utcnow()`
  is an explicit `now : Nat` argument of each handler.
* A nullable column or Python value is `Option α`; `none` is SQL NULL /
  Python `None` / JSON null.
* A JSON body key is `Option (Option α)`: `none` = key absent,
  `some none` = key present with null, `some (some v)` = key present with
  value `v`.  This mirrors Python `dict` access: `data.get(k, d)` returns
  the stored value (null included) whenever the key is present.
* The collection (the `todos.db` table) is a `List Todo`; a commit replaces
  the list.  A handler that raises before commit leaves the list unchanged.
* Fallible handlers return `Except Err ...`.
-/

namespace TodoApp

/-- A row of the `Todo` table, mirroring the columns declared in the model
(src/app.py lines 14-23).  `title` is declared NOT NULL in the schema, but
the Python object accepts any value the handlers assign, so every column is
`Option`-typed except the server-stamped timestamps, which every code path
sets at insert. -/
structure Todo where
  id : Nat
  title : Option String
  description : Option String
  completed : Option Bool
  priority : Option String
  category : Option String
  due_date : Option Nat
  created_at : Nat
  updated_at : Nat
deriving Repr, DecidableEq

/-- Python truthiness of an optional boolean: `None` is falsy. -/
def truthyB : Option Bool → Bool
  | none => false
  | some b => b

/-- Model of `datetime.isoformat`: timestamps render injectively as strings. -/
def isoformat (n : Nat) : String := toString n

/-- Model of `datetime.fromisoformat`: a partial map from strings to
timestamps; a well-formed date string is modelled as a nonempty decimal
numeral, and every other string fails (Python raises `ValueError`). -/
def fromisoformat (s : String) : Option Nat :=
  if s.data.all Char.isDigit && !s.data.isEmpty then
    some (s.data.foldl (fun n c => 10 * n + (c.toNat - 48)) 0)
  else none

/-- Python `s.replace('Z', '+00:00')`: the pattern is the single character
Z, so it is exactly character-wise replacement. -/
def replaceZ (s : String) : String :=
  String.mk (s.data.foldr
    (fun c acc =>
      if c = 'Z' then '+' :: '0' :: '0' :: ':' :: '0' :: '0' :: acc else c :: acc)
    [])

/-- The date parsing both handlers perform (src/app.py lines 83 and 110):
`datetime.fromisoformat(s.replace('Z', '+00:00'))`. -/
def parse_date (s : String) : Option Nat := fromisoformat (replaceZ s)

/-- The JSON object produced by `Todo.to_dict` (src/app.py lines 25-37). -/
structure TodoDict where
  id : Nat
  title : Option String
  description : Option String
  completed : Option Bool
  priority : Option String
  category : Option String
  due_date : Option String
  created_at : String
  updated_at : String
  is_overdue : Option Bool
deriving Repr, DecidableEq

/-- `Todo.to_dict` (src/app.py lines 25-37).  The `is_overdue` entry is the
Python expression `self.due_date and self.due_date < datetime.utcnow() and
not self.completed`; `and` returns its first falsy operand, so the value is
`None` (JSON null, not `False`) whenever `due_date` is unset, and is a
boolean otherwise. -/
def Todo.to_dict (t : Todo) (now : Nat) : TodoDict :=
  { id := t.id
    title := t.title
    description := t.description
    completed := t.completed
    priority := t.priority
    category := t.category
    due_date := t.due_date.map isoformat
    created_at := isoformat t.created_at
    updated_at := isoformat t.updated_at
    is_overdue :=
      match t.due_date with
      | none => none
      | some d => some (decide (d < now) && !truthyB t.completed) }

/-- Failures a handler can signal.  `keyError` models the uncaught Python
`KeyError` from `data['title']`, `valueError` the uncaught `ValueError`
from `datetime.fromisoformat`, `integrityError` the uncaught
`IntegrityError` raised at commit when a write violates the schema's
NOT NULL constraint on `title` (src/app.py line 16), and `notFound` the
`get_or_404` abort. -/
inductive Err where
  | keyError
  | valueError
  | integrityError
  | notFound
deriving Repr, DecidableEq

/-- HTTP status of each failure: `get_or_404` aborts with 404, and Flask
turns an exception that no handler catches (here `KeyError`, `ValueError`
and `IntegrityError`; src/app.py has no try/except) into a 500 Internal
Server Error response. -/
def errStatus : Err → Nat
  | .notFound => 404
  | .keyError => 500
  | .valueError => 500
  | .integrityError => 500

/-- Python `data.get(key, dflt)` on a JSON body key: the stored value (null
included) when the key is present, `dflt` when absent. -/
def jsonGet (field : Option (Option α)) (dflt : Option α) : Option α :=
  field.getD dflt

/-- Body of POST /api/todos (the keys read by `create_todo`). -/
structure CreateBody where
  title : Option (Option String) := none
  description : Option (Option String) := none
  priority : Option (Option String) := none
  category : Option (Option String) := none
  due_date : Option (Option String) := none
deriving Repr, DecidableEq

/-- Body of PUT /api/todos/id (the keys read by `update_todo`). -/
structure UpdateBody where
  title : Option (Option String) := none
  description : Option (Option String) := none
  completed : Option (Option Bool) := none
  priority : Option (Option String) := none
  category : Option (Option String) := none
  due_date : Option (Option String) := none
deriving Repr, DecidableEq

/-- Body of POST /api/todos/bulk (the keys read by `bulk_action`). -/
structure BulkBody where
  action : Option (Option String) := none
  todo_ids : List Nat := []
  priority : Option (Option String) := none
deriving Repr, DecidableEq

/-- The primary key SQLite assigns to a fresh row: one more than the largest
id currently in the table. -/
def freshId (db : List Todo) : Nat := (db.map Todo.id).foldr max 0 + 1

/-- POST /api/todos (src/app.py lines 77-96).  The handler first runs the
due-date block (lines 81-83): `if data.get('due_date'):` is a truthiness
test, so an absent, null or empty-string value skips parsing; a non-empty
string is parsed and a malformed one raises `ValueError`.  Only then does
`data['title']` run (line 86), raising `KeyError` when the key is absent.
The remaining keys are read with `data.get` and its defaults.  `completed`
comes from the column default `False`; both timestamps are stamped `now`.
A body carrying `title: null` reaches the commit with `title = None`; the
INSERT then violates the schema's NOT NULL constraint on `title`
(line 16), SQLite raises `IntegrityError`, and nothing is inserted. -/
def create_todo (db : List Todo) (data : CreateBody) (now : Nat) :
    Except Err (List Todo × TodoDict) :=
  let dueRes : Except Err (Option Nat) :=
    match data.due_date with
    | some (some s) =>
      if s = "" then .ok none
      else
        match parse_date s with
        | some d => .ok (some d)
        | none => .error .valueError
    | _ => .ok none
  match dueRes with
  | .error e => .error e
  | .ok due =>
    match data.title with
    | none => .error .keyError
    | some ttl =>
      let todo : Todo :=
        { id := freshId db
          title := ttl
          description := jsonGet data.description (some "")
          completed := some false
          priority := jsonGet data.priority (some "medium")
          category := jsonGet data.category (some "general")
          due_date := due
          created_at := now
          updated_at := now }
      match ttl with
      | none => .error .integrityError
      | some _ => .ok (db ++ [todo], todo.to_dict now)

/-- The mutation PUT applies to the fetched row (src/app.py lines 103-114).
Each of the five plain fields is `data.get(key, current)`, so an absent key
keeps the current value and a present key overwrites, null included.  The
due-date block: a truthy value parses (malformed raises `ValueError`), a
present null clears, anything else (absent, or present falsy non-null such
as the empty string) leaves the field alone.  Line 114 then stamps
`updated_at = datetime.utcnow()` unconditionally. -/
def applyUpdate (t : Todo) (data : UpdateBody) (now : Nat) : Except Err Todo :=
  let t1 : Todo :=
    { t with
      title := jsonGet data.title t.title
      description := jsonGet data.description t.description
      completed := jsonGet data.completed t.completed
      priority := jsonGet data.priority t.priority
      category := jsonGet data.category t.category }
  let dueRes : Except Err (Option Nat) :=
    match data.due_date with
    | some (some s) =>
      if s = "" then .ok t1.due_date
      else
        match parse_date s with
        | some d => .ok (some d)
        | none => .error .valueError
    | some none => .ok none
    | none => .ok t1.due_date
  match dueRes with
  | .error e => .error e
  | .ok due => .ok { t1 with due_date := due, updated_at := now }

/-- PUT /api/todos/id (src/app.py lines 98-117): fetch-or-404, mutate,
commit, return the updated row's dict.  A `ValueError` aborts before the
commit, so the table is unchanged on failure.  At commit the ORM writes
the net-changed columns; writing NULL into `title` (a body with
`title: null` over a row whose title is non-null) violates the schema's
NOT NULL constraint on `title` (line 16): SQLite raises `IntegrityError`
and the row is unchanged. -/
def update_todo (db : List Todo) (todo_id : Nat) (data : UpdateBody) (now : Nat) :
    Except Err (List Todo × TodoDict) :=
  match db.find? (fun t => t.id == todo_id) with
  | none => .error .notFound
  | some t =>
    match applyUpdate t data now with
    | .error e => .error e
    | .ok t2 =>
      if t2.title = none ∧ t.title ≠ none then .error .integrityError
      else .ok (db.map (fun u => if u.id == todo_id then t2 else u), t2.to_dict now)

/-- DELETE /api/todos/id (src/app.py lines 119-125): fetch-or-404 then
delete and commit. -/
def delete_todo (db : List Todo) (todo_id : Nat) : Except Err (List Todo) :=
  match db.find? (fun t => t.id == todo_id) with
  | none => .error .notFound
  | some _ => .ok (db.filter (fun t => !(t.id == todo_id)))

/-- The SQL predicate `Todo.due_date < now AND Todo.completed == False`
(src/app.py lines 58 and 132): a NULL `due_date` or a NULL `completed`
fails the comparison, as SQL equality and ordering with NULL never hold. -/
def overdueB (now : Nat) (t : Todo) : Bool :=
  (match t.due_date with
   | some d => decide (d < now)
   | none => false) && (t.completed == some false)

/-- The filtering part of GET /api/todos (src/app.py lines 50-61): the
`filter` query parameter narrows by completion state ("completed",
"pending", "overdue"; any other value keeps everything), then a `category`
other than "all" narrows by exact category match.  `filter_by(completed=X)`
and `filter_by(category=c)` are SQL equality, which a NULL column never
satisfies. -/
def filterTodos (db : List Todo) (filter_by category : String) (now : Nat) :
    List Todo :=
  let q :=
    if filter_by = "completed" then db.filter (fun t => t.completed == some true)
    else if filter_by = "pending" then db.filter (fun t => t.completed == some false)
    else if filter_by = "overdue" then db.filter (fun t => overdueB now t)
    else db
  if category ≠ "all" then q.filter (fun t => t.category == some category) else q

/-- The rank `priority_order.get(x.priority, 4)` with
`priority_order = {'high': 1, 'medium': 2, 'low': 3}` (src/app.py
lines 65-67); any unrecognized priority, NULL included, ranks 4. -/
def priority_order : Option String → Nat
  | some "high" => 1
  | some "medium" => 2
  | some "low" => 3
  | _ => 4

/-- Comparison used for `sort=priority`: Python's stable `list.sort` with
the rank of `priority_order` as key. -/
def lePriority (a b : Todo) : Bool := priority_order a.priority ≤ priority_order b.priority

/-- Comparison modelling `ORDER BY due_date ASC NULLS LAST` (line 69). -/
def leDueAscNullsLast (a b : Todo) : Bool :=
  match a.due_date, b.due_date with
  | some x, some y => decide (x ≤ y)
  | some _, none => true
  | none, some _ => false
  | none, none => true

/-- Comparison modelling `ORDER BY created_at DESC` (line 72). -/
def leCreatedDesc (a b : Todo) : Bool := decide (b.created_at ≤ a.created_at)

/-- GET /api/todos (src/app.py lines 44-75): filter, then sort.  The
priority branch fetches the filtered rows in the table's iteration order
and sorts them in memory with Python's stable sort; the other two branches
are SQL ORDER BY, modelled with the same stable sort under the
corresponding key.  The route serializes each row with `to_dict`; the
records themselves are returned here. -/
def get_todos (db : List Todo) (filter_by category sort_by : String) (now : Nat) :
    List Todo :=
  let todos := filterTodos db filter_by category now
  if sort_by = "priority" then todos.mergeSort lePriority
  else if sort_by = "due_date" then todos.mergeSort leDueAscNullsLast
  else todos.mergeSort leCreatedDesc

/-- The JSON object GET /api/stats returns. -/
structure Stats where
  total : Nat
  completed : Nat
  pending : Nat
  overdue : Nat
  categories : List (Option String × Nat)
deriving Repr, DecidableEq

/-- GET /api/stats (src/app.py lines 127-143): total count, count of rows
with completed = TRUE, pending = total - completed, count of overdue rows,
and the GROUP BY category counts (one entry per distinct category value in
the table, NULL forming its own group). -/
def get_stats (db : List Todo) (now : Nat) : Stats :=
  let total := db.length
  let completed := (db.filter (fun t => t.completed == some true)).length
  { total := total
    completed := completed
    pending := total - completed
    overdue := (db.filter (fun t => overdueB now t)).length
    categories :=
      (db.map Todo.category).dedup.map
        (fun c => (c, (db.filter (fun t => t.category == c)).length)) }

/-- POST /api/todos/bulk (src/app.py lines 145-165): fetch the rows whose
id is in `todo_ids`, apply the action, commit, return success.  A
recognized action touches exactly the matched rows; an id with no row
simply matches nothing; an unrecognized or missing action touches nothing;
the response is `{'success': True}` in every case.  At flush the ORM
value-compares each assigned attribute against its committed value and
emits an UPDATE only for rows with a net change, so a matched row that is
already completed (for `complete`) or already at the requested priority
(for `set_priority`) is not written at all; the `updated_at` column's
`onupdate=datetime.utcnow` hook (line 23) therefore restamps exactly the
rows that are actually written. -/
def bulk_action (db : List Todo) (data : BulkBody) (now : Nat) :
    List Todo × Bool :=
  let db2 :=
    match jsonGet data.action none with
    | some "complete" =>
      db.map (fun t =>
        if t.id ∈ data.todo_ids ∧ t.completed ≠ some true then
          { t with completed := some true, updated_at := now }
        else t)
    | some "delete" =>
      db.filter (fun t => !(decide (t.id ∈ data.todo_ids)))
    | some "set_priority" =>
      let p := jsonGet data.priority (some "medium")
      db.map (fun t =>
        if t.id ∈ data.todo_ids ∧ t.priority ≠ p then
          { t with priority := p, updated_at := now }
        else t)
    | _ => db
  (db2, true)

/-- One API request that can change the table. -/
inductive Op where
  | create (data : CreateBody)
  | update (todo_id : Nat) (data : UpdateBody)
  | delete (todo_id : Nat)
  | bulk (data : BulkBody)

/-- The table after serving one request at server time `now`: a handler
that fails commits nothing. -/
def step (db : List Todo) (op : Op) (now : Nat) : List Todo :=
  match op with
  | .create d =>
    match create_todo db d now with
    | .ok p => p.1
    | .error _ => db
  | .update i d =>
    match update_todo db i d now with
    | .ok p => p.1
    | .error _ => db
  | .delete i =>
    match delete_todo db i with
    | .ok db2 => db2
    | .error _ => db
  | .bulk d => (bulk_action db d now).1

/-- The table after serving a timed sequence of requests. -/
def run (db : List Todo) (ops : List (Op × Nat)) : List Todo :=
  match ops with
  | [] => db
  | p :: rest => run (step db p.1 p.2) rest

/-- No two rows share a primary key. -/
def IdsNodup (db : List Todo) : Prop := (db.map Todo.id).Nodup

/-- Every row was created no later than it was last updated. -/
def StampsOrdered (db : List Todo) : Prop :=
  ∀ t ∈ db, t.created_at ≤ t.updated_at

/-- Every row's timestamps are at most `n`. -/
def StampsLE (db : List Todo) (n : Nat) : Prop :=
  ∀ t ∈ db, t.updated_at ≤ n

/-- Table well-formedness at server time `clk`. -/
def GoodDb (db : List Todo) (clk : Nat) : Prop :=
  IdsNodup db ∧ StampsOrdered db ∧ StampsLE db clk

/-- The request times of a trace are nondecreasing, starting from `c`. -/
def ClockMono : Nat → List (Op × Nat) → Prop
  | _, [] => True
  | c, p :: rest => c ≤ p.2 ∧ ClockMono p.2 rest

/-- Fixture: a plain row with no due date. -/
def sampleTodo : Todo :=
  { id := 1, title := some "A", description := some "", completed := some false,
    priority := some "medium", category := some "general", due_date := none,
    created_at := 0, updated_at := 0 }

/-- Fixture: a row whose completed column is NULL (reachable by updating a
row with a body carrying `completed: null`) and whose due date has passed. -/
def nullCompletedTodo : Todo :=
  { id := 2, title := some "B", description := none, completed := none,
    priority := some "high", category := some "work", due_date := some 0,
    created_at := 0, updated_at := 0 }

/-- Fixture: bulk body with an unrecognized action. -/
def archiveBody : BulkBody := { action := some (some "archive"), todo_ids := [1] }

/-- Fixture: a row that is already completed. -/
def doneTodo : Todo :=
  { id := 3, title := some "C", description := some "", completed := some true,
    priority := some "low", category := some "general", due_date := none,
    created_at := 0, updated_at := 0 }

/-!  Helper lemmas about the handlers.  -/

/-- Inverting a successful `applyUpdate`: the mutated row keeps its id and
`created_at`, carries `updated_at = now`, and every plain field is the
`data.get(key, current)` merge of the body over the old row. -/
theorem applyUpdate_ok_fields {t : Todo} {data : UpdateBody} {now : Nat} {t2 : Todo}
    (h : applyUpdate t data now = .ok t2) :
    t2.id = t.id ∧ t2.created_at = t.created_at ∧ t2.updated_at = now
      ∧ t2.title = jsonGet data.title t.title
      ∧ t2.description = jsonGet data.description t.description
      ∧ t2.completed = jsonGet data.completed t.completed
      ∧ t2.priority = jsonGet data.priority t.priority
      ∧ t2.category = jsonGet data.category t.category := by
  unfold applyUpdate at h
  rcases hd : data.due_date with _ | (_ | s) <;> rw [hd] at h
  · cases h
    simp
  · cases h
    simp
  · by_cases hs : s = "" <;> simp only [hs, ite_true, ite_false] at h
    · cases h
      simp
    · cases hp : parse_date s <;> rw [hp] at h
      · cases h
      · cases h
        simp

/-- Inverting a successful `applyUpdate`, due-date part. -/
theorem applyUpdate_ok_due {t : Todo} {data : UpdateBody} {now : Nat} {t2 : Todo}
    (h : applyUpdate t data now = .ok t2) :
    (data.due_date = none → t2.due_date = t.due_date)
      ∧ (data.due_date = some none → t2.due_date = none)
      ∧ (∀ s d, data.due_date = some (some s) → s ≠ "" → parse_date s = some d →
          t2.due_date = some d) := by
  unfold applyUpdate at h
  rcases hd : data.due_date with _ | (_ | s) <;> rw [hd] at h
  · cases h
    exact ⟨fun _ => rfl, by simp [hd], by simp [hd]⟩
  · cases h
    exact ⟨by simp [hd], fun _ => rfl, by simp [hd]⟩
  · by_cases hs : s = "" <;> simp only [hs, ite_true, ite_false] at h
    · cases h
      refine ⟨by simp [hd], by simp [hd], ?_⟩
      intro s2 d2 hs2 hne _
      simp only [Option.some.injEq] at hs2
      subst hs2
      exact absurd hs hne
    · cases hp : parse_date s <;> rw [hp] at h
      · cases h
      · cases h
        refine ⟨by simp [hd], by simp [hd], ?_⟩
        intro s2 d2 hs2 _ hp2
        simp only [Option.some.injEq] at hs2
        subst hs2
        rw [hp] at hp2
        simp only [Option.some.injEq] at hp2
        subst hp2
        rfl

/-- Inverting a successful `update_todo`. -/
theorem update_todo_ok {db : List Todo} {i : Nat} {data : UpdateBody} {now : Nat}
    {db2 : List Todo} {d : TodoDict}
    (h : update_todo db i data now = .ok (db2, d)) :
    ∃ t t2, db.find? (fun u => u.id == i) = some t
      ∧ applyUpdate t data now = .ok t2
      ∧ db2 = db.map (fun u => if u.id == i then t2 else u)
      ∧ d = t2.to_dict now := by
  unfold update_todo at h
  split at h
  next hf => cases h
  next t hf =>
    split at h
    next ha => cases h
    next t2 ha =>
      split at h
      · cases h
      · cases h
        exact ⟨t, t2, hf, ha, rfl, rfl⟩

/-- The only exception the in-memory mutation itself raises is the
`ValueError` of the date parse. -/
theorem applyUpdate_error {t : Todo} {data : UpdateBody} {now : Nat} {e : Err}
    (h : applyUpdate t data now = .error e) : e = Err.valueError := by
  unfold applyUpdate at h
  rcases hd : data.due_date with _ | (_ | s) <;> rw [hd] at h
  · cases h
  · cases h
  · by_cases hs : s = "" <;> simp only [hs, ite_true, ite_false] at h
    · cases h
    · cases hp : parse_date s <;> rw [hp] at h
      · cases h
        rfl
      · cases h

/-- Inverting a successful `create_todo`: the new table is the old one with
one appended row, stamped `now` on both timestamps and carrying the fresh
primary key. -/
theorem create_todo_ok {db : List Todo} {data : CreateBody} {now : Nat}
    {db2 : List Todo} {d : TodoDict}
    (h : create_todo db data now = .ok (db2, d)) :
    ∃ todo : Todo, db2 = db ++ [todo] ∧ todo.id = freshId db
      ∧ todo.created_at = now ∧ todo.updated_at = now := by
  unfold create_todo at h
  rcases hd : data.due_date with _ | (_ | s) <;> rw [hd] at h
  · rcases ht : data.title with _ | (_ | s2) <;> rw [ht] at h
    · cases h
    · cases h
    · cases h
      exact ⟨_, rfl, rfl, rfl, rfl⟩
  · rcases ht : data.title with _ | (_ | s2) <;> rw [ht] at h
    · cases h
    · cases h
    · cases h
      exact ⟨_, rfl, rfl, rfl, rfl⟩
  · by_cases hs : s = "" <;> simp only [hs, ite_true, ite_false] at h
    · rcases ht : data.title with _ | (_ | s2) <;> rw [ht] at h
      · cases h
      · cases h
      · cases h
        exact ⟨_, rfl, rfl, rfl, rfl⟩
    · cases hp : parse_date s <;> rw [hp] at h
      · cases h
      · rcases ht : data.title with _ | (_ | s2) <;> rw [ht] at h
        · cases h
        · cases h
        · cases h
          exact ⟨_, rfl, rfl, rfl, rfl⟩

/-- Inverting a successful `delete_todo`. -/
theorem delete_todo_ok {db : List Todo} {i : Nat} {db2 : List Todo}
    (h : delete_todo db i = .ok db2) :
    db2 = db.filter (fun t => !(t.id == i)) := by
  unfold delete_todo at h
  cases hf : db.find? (fun u => u.id == i) <;> rw [hf] at h
  · cases h
  · cases h
    rfl

/-- Every member of a list of naturals is at most its `foldr max 0`. -/
theorem le_foldr_max {x : Nat} {l : List Nat} (h : x ∈ l) : x ≤ l.foldr max 0 := by
  induction l with
  | nil => cases h
  | cons a l ih =>
    rcases List.mem_cons.mp h with rfl | h
    · exact Nat.le_max_left _ _
    · exact Nat.le_trans (ih h) (Nat.le_max_right _ _)

/-- Every id already in the table is strictly below the fresh id. -/
theorem id_lt_freshId {t : Todo} {db : List Todo} (h : t ∈ db) : t.id < freshId db :=
  Nat.lt_succ_of_le (le_foldr_max (List.mem_map_of_mem Todo.id h))

/-!  C1: the derived `is_overdue` field.  -/

/-- C1, counterexample to the claim as stated.  The claim says a record
with no `due_date` serializes `is_overdue` as false; in the code the
Python `and`-chain yields `None`, serialized as JSON null, not the boolean
false.  Moreover a record whose `completed` column is NULL (falsy, but not
false) and whose due date has passed serializes `is_overdue` as true, so
"true iff ... completed is false" also fails. -/
theorem c1_counterexample :
    ((sampleTodo.to_dict 100).is_overdue ≠ some false
      ∧ sampleTodo.due_date = none)
    ∧ ((nullCompletedTodo.to_dict 100).is_overdue = some true
      ∧ nullCompletedTodo.completed ≠ some false) := by
  decide

/-- C1, amended: in the JSON representation produced at evaluation time
`now`, `is_overdue` is the boolean true exactly when `due_date` is set,
earlier than `now`, and `completed` is falsy (false or null); and when
`due_date` is unset `is_overdue` is JSON null — a falsy value, but not the
boolean false — regardless of `completed` or the evaluation time. -/
theorem c1_is_overdue (t : Todo) (now : Nat) :
    ((t.to_dict now).is_overdue = some true ↔
      ∃ d, t.due_date = some d ∧ d < now ∧ truthyB t.completed = false)
    ∧ (t.due_date = none → (t.to_dict now).is_overdue = none) := by
  constructor
  · cases hd : t.due_date with
    | none => simp [Todo.to_dict, hd]
    | some d => simp [Todo.to_dict, hd]
  · intro hd
    simp [Todo.to_dict, hd]

/-- C1, witness: the amended theorem applied to the fixture row with no
due date. -/
theorem c1_witness : (sampleTodo.to_dict 100).is_overdue = none :=
  (c1_is_overdue sampleTodo 100).2 rfl

/-!  C3: validation failures.  -/

/-- C3, counterexample to the claim as stated.  A create body without
`title` raises an uncaught `KeyError`, and a malformed due-date string an
uncaught `ValueError`; Flask surfaces both as 500, not as the
400-equivalent the claim requires. -/
theorem c3_counterexample :
    create_todo [] ({} : CreateBody) 0 = .error Err.keyError
    ∧ create_todo []
        ({ title := some (some "x"), due_date := some (some "bogus") } : CreateBody) 0
        = .error Err.valueError
    ∧ errStatus Err.keyError = 500
    ∧ errStatus Err.valueError = 500
    ∧ errStatus Err.keyError ≠ 400 := by
  refine ⟨rfl, ?_, rfl, rfl, by decide⟩
  have hp : parse_date "bogus" = none := by decide
  unfold create_todo
  simp only [hp]
  rfl

/-- C3, amended: a create body lacking the `title` key, and a create or
update body whose `due_date` is a malformed non-empty string, make the
handler fail with an uncaught exception surfaced as a 500-equivalent
response (not 400), and the table is not changed: the failing request
commits nothing. -/
theorem c3_validation_failures :
    (∀ (db : List Todo) (data : CreateBody) (now : Nat), data.title = none →
      ∃ e, create_todo db data now = .error e ∧ errStatus e = 500
        ∧ step db (.create data) now = db)
    ∧ (∀ (db : List Todo) (data : CreateBody) (now : Nat) (s : String),
        data.due_date = some (some s) → s ≠ "" → parse_date s = none →
        create_todo db data now = .error Err.valueError
        ∧ step db (.create data) now = db)
    ∧ (∀ (db : List Todo) (i : Nat) (data : UpdateBody) (now : Nat) (s : String),
        data.due_date = some (some s) → s ≠ "" → parse_date s = none →
        update_todo db i data now = .error Err.valueError
          ∨ update_todo db i data now = .error Err.notFound)
    ∧ (∀ (db : List Todo) (i : Nat) (data : UpdateBody) (now : Nat),
        (∀ p, update_todo db i data now ≠ .ok p) → step db (.update i data) now = db) := by
  have hstep : ∀ (db : List Todo) (data : CreateBody) (now : Nat) (e : Err),
      create_todo db data now = .error e → step db (.create data) now = db := by
    intro db data now e h
    simp only [step, h]
  have hcerr : ∀ (db : List Todo) (data : CreateBody) (now : Nat), data.title = none →
      create_todo db data now = .error Err.keyError
        ∨ create_todo db data now = .error Err.valueError := by
    intro db data now ht
    unfold create_todo
    rcases hd : data.due_date with _ | (_ | s)
    · left
      simp only [hd, ht]
    · left
      simp only [hd, ht]
    · simp only [hd]
      by_cases hs : s = ""
      · rw [if_pos hs]
        left
        simp only [ht]
      · rw [if_neg hs]
        cases hp : parse_date s
        · right
          simp only [hp]
        · left
          simp only [hp, ht]
  refine ⟨?_, ?_, ?_, ?_⟩
  · intro db data now ht
    rcases hcerr db data now ht with h | h
    · exact ⟨Err.keyError, h, rfl, hstep db data now _ h⟩
    · exact ⟨Err.valueError, h, rfl, hstep db data now _ h⟩
  · intro db data now s hd hs hp
    have h : create_todo db data now = .error Err.valueError := by
      unfold create_todo
      simp only [hd]
      rw [if_neg hs]
      simp only [hp]
    exact ⟨h, hstep db data now _ h⟩
  · intro db i data now s hd hs hp
    unfold update_todo
    cases hf : db.find? (fun u => u.id == i) with
    | none => exact Or.inr rfl
    | some t =>
      left
      have ha : applyUpdate t data now = .error Err.valueError := by
        unfold applyUpdate
        simp only [hd]
        rw [if_neg hs]
        simp only [hp]
      simp only [ha]
  · intro db i data now hfail
    cases hu : update_todo db i data now with
    | error e => simp only [step, hu]
    | ok p => exact absurd hu (hfail p)

/-- C3, witness: the amended theorem applied to a concrete body lacking
`title`, yielding a 500-surfaced failure that leaves the table unchanged. -/
theorem c3_witness :
    ∃ e, create_todo [sampleTodo] ({} : CreateBody) 3 = .error e ∧ errStatus e = 500
      ∧ step [sampleTodo] (.create ({} : CreateBody)) 3 = [sampleTodo] :=
  c3_validation_failures.1 [sampleTodo] ({} : CreateBody) 3 rfl

/-!  C10: bulk requests with an unrecognized action.  -/

/-- C10: a bulk request whose action key is absent, null, or any string
other than complete/delete/set_priority leaves the table untouched and
still reports success. -/
theorem c10_unrecognized_bulk_noop (db : List Todo) (data : BulkBody) (now : Nat)
    (h1 : jsonGet data.action none ≠ some "complete")
    (h2 : jsonGet data.action none ≠ some "delete")
    (h3 : jsonGet data.action none ≠ some "set_priority") :
    bulk_action db data now = (db, true) := by
  unfold bulk_action
  split
  next heq => exact absurd heq h1
  next heq => exact absurd heq h2
  next heq => exact absurd heq h3
  next => rfl

/-- C10, witness: a concrete bulk request with action "archive" on a
nonempty table. -/
theorem c10_witness : bulk_action [sampleTodo] archiveBody 5 = ([sampleTodo], true) :=
  c10_unrecognized_bulk_noop [sampleTodo] archiveBody 5 (by decide) (by decide) (by decide)

/-!  C2 and C9: the partial-update merge.  -/

/-- In the committed table of a successful update, every row carrying the
target id is the mutated row. -/
theorem mem_map_if_eq {db : List Todo} {i : Nat} {t2 u : Todo}
    (hu : u ∈ db.map (fun x => if x.id == i then t2 else x)) (hid : u.id = i) :
    u = t2 := by
  rcases List.mem_map.mp hu with ⟨x, hx, hfx⟩
  by_cases hxi : (x.id == i) = true
  · rw [if_pos hxi] at hfx
    exact hfx.symm
  · rw [if_neg hxi] at hfx
    subst hfx
    exact absurd (by simp [hid]) hxi

/-- C2, counterexample to the claim as stated: updating with the empty
body (every key absent) still changes the record, because line 114 of
src/app.py refreshes `updated_at` unconditionally.  So `due_date` is not
the sole exception to "fields with absent keys are left unchanged". -/
theorem c2_counterexample :
    update_todo [sampleTodo] 1 ({} : UpdateBody) 1000
      = .ok ([{ sampleTodo with updated_at := 1000 }],
          ({ sampleTodo with updated_at := 1000 } : Todo).to_dict 1000)
    ∧ ({ sampleTodo with updated_at := 1000 } : Todo).updated_at ≠ sampleTodo.updated_at :=
  ⟨rfl, by decide⟩

/-- C2, amended: a successful partial update leaves every field whose key
is absent from the body unchanged — except `updated_at`, which is always
refreshed to the current server time — and `id` and `created_at` are
unchanged unconditionally.  `due_date` behaves as claimed: cleared exactly
when its key is present with null, set to the parsed date when present
with a truthy well-formed string, unchanged when absent. -/
theorem c2_partial_update_frame {db : List Todo} {i : Nat} {data : UpdateBody}
    {now : Nat} {db2 : List Todo} {d : TodoDict} {t t2 : Todo}
    (hok : update_todo db i data now = .ok (db2, d))
    (hf : db.find? (fun u => u.id == i) = some t)
    (ht2 : t2 ∈ db2) (hid : t2.id = i) :
    t2.id = t.id
    ∧ t2.created_at = t.created_at
    ∧ (data.title = none → t2.title = t.title)
    ∧ (data.description = none → t2.description = t.description)
    ∧ (data.completed = none → t2.completed = t.completed)
    ∧ (data.priority = none → t2.priority = t.priority)
    ∧ (data.category = none → t2.category = t.category)
    ∧ (data.due_date = none → t2.due_date = t.due_date)
    ∧ (data.due_date = some none → t2.due_date = none)
    ∧ (∀ s d0, data.due_date = some (some s) → s ≠ "" → parse_date s = some d0 →
        t2.due_date = some d0)
    ∧ t2.updated_at = now := by
  rcases update_todo_ok hok with ⟨t', tNew, hf', ha, hdb2, _⟩
  rw [hf] at hf'
  injection hf' with hf'
  subst hf'
  obtain ⟨hid2, hcr, hup, htl, hde, hco, hpr, hca⟩ := applyUpdate_ok_fields ha
  obtain ⟨hdn, hdc, hdp⟩ := applyUpdate_ok_due ha
  have hteq : t2 = tNew := mem_map_if_eq (hdb2 ▸ ht2) hid
  subst hteq
  refine ⟨hid2, hcr, ?_, ?_, ?_, ?_, ?_, hdn, hdc, hdp, hup⟩
  · intro h
    rw [htl, h]
    rfl
  · intro h
    rw [hde, h]
    rfl
  · intro h
    rw [hco, h]
    rfl
  · intro h
    rw [hpr, h]
    rfl
  · intro h
    rw [hca, h]
    rfl

/-- C2, witness: a concrete update that sets only `title`; `description`
is preserved and `updated_at` is refreshed. -/
theorem c2_witness :
    ({ sampleTodo with title := some "T2", updated_at := 9 } : Todo).description
        = sampleTodo.description
    ∧ ({ sampleTodo with title := some "T2", updated_at := 9 } : Todo).updated_at = 9 := by
  have h := @c2_partial_update_frame [sampleTodo] 1
      ({ title := some (some "T2") } : UpdateBody) 9
      [{ sampleTodo with title := some "T2", updated_at := 9 }]
      (({ sampleTodo with title := some "T2", updated_at := 9 } : Todo).to_dict 9)
      sampleTodo { sampleTodo with title := some "T2", updated_at := 9 }
      rfl rfl (List.mem_singleton.mpr rfl) rfl
  exact ⟨h.2.2.2.1 rfl, h.2.2.2.2.2.2.2.2.2.2⟩

/-- C9, counterexample to the claim as stated: a body carrying
`title: null` over an existing row does not set the stored title to NULL.
`title` is declared `nullable=False` (src/app.py line 16), so the commit
violates the NOT NULL constraint: the update fails with an uncaught
`IntegrityError` surfaced as 500 and the row is unchanged, its title
intact. -/
theorem c9_counterexample :
    update_todo [sampleTodo] 1 ({ title := some none } : UpdateBody) 7
      = .error Err.integrityError
    ∧ errStatus Err.integrityError = 500
    ∧ step [sampleTodo] (.update 1 ({ title := some none } : UpdateBody)) 7
        = [sampleTodo]
    ∧ sampleTodo.title ≠ none := by
  refine ⟨rfl, rfl, rfl, by decide⟩

/-- C9, amended: in an update body, a key present with a null value
overwrites the stored field with NULL (the prior value is not retained)
for each of description, completed, priority and category, while an absent
key preserves the field; for title, a present null reaches the commit as
`title = None` and (the stored title being non-null) violates the schema's
NOT NULL constraint: the update fails with an `IntegrityError` surfaced as
a 500-equivalent response and the record is unchanged. -/
theorem c9_present_null_overwrites :
    (∀ (db : List Todo) (i : Nat) (data : UpdateBody) (now : Nat)
        (db2 : List Todo) (d : TodoDict) (t t2 : Todo),
      update_todo db i data now = .ok (db2, d) →
      db.find? (fun u => u.id == i) = some t →
      t2 ∈ db2 → t2.id = i →
        (data.title = none → t2.title = t.title)
        ∧ (data.description = some none → t2.description = none)
        ∧ (data.description = none → t2.description = t.description)
        ∧ (data.completed = some none → t2.completed = none)
        ∧ (data.completed = none → t2.completed = t.completed)
        ∧ (data.priority = some none → t2.priority = none)
        ∧ (data.priority = none → t2.priority = t.priority)
        ∧ (data.category = some none → t2.category = none)
        ∧ (data.category = none → t2.category = t.category))
    ∧ (∀ (db : List Todo) (i : Nat) (data : UpdateBody) (now : Nat) (t : Todo),
        db.find? (fun u => u.id == i) = some t →
        data.title = some none → t.title ≠ none →
        (∃ e, update_todo db i data now = .error e ∧ errStatus e = 500)
        ∧ step db (.update i data) now = db) := by
  constructor
  · intro db i data now db2 d t t2 hok hf ht2 hid
    rcases update_todo_ok hok with ⟨t', tNew, hf', ha, hdb2, _⟩
    rw [hf] at hf'
    injection hf' with hf'
    subst hf'
    obtain ⟨_, _, _, htl, hde, hco, hpr, hca⟩ := applyUpdate_ok_fields ha
    have hteq : t2 = tNew := mem_map_if_eq (hdb2 ▸ ht2) hid
    subst hteq
    refine ⟨?_, ?_, ?_, ?_, ?_, ?_, ?_, ?_, ?_⟩ <;> intro h
    · rw [htl, h]
      rfl
    · rw [hde, h]
      rfl
    · rw [hde, h]
      rfl
    · rw [hco, h]
      rfl
    · rw [hco, h]
      rfl
    · rw [hpr, h]
      rfl
    · rw [hpr, h]
      rfl
    · rw [hca, h]
      rfl
    · rw [hca, h]
      rfl
  · intro db i data now t hf htl hne
    cases ha : applyUpdate t data now with
    | error e =>
      have hu : update_todo db i data now = .error e := by
        unfold update_todo
        simp only [hf, ha]
      refine ⟨⟨e, hu, ?_⟩, by simp only [step, hu]⟩
      rw [applyUpdate_error ha]
      rfl
    | ok t2 =>
      have h2 : t2.title = none := by
        obtain ⟨_, _, _, htl2, _⟩ := applyUpdate_ok_fields ha
        rw [htl2, htl]
        rfl
      have hu : update_todo db i data now = .error Err.integrityError := by
        unfold update_todo
        simp only [hf, ha]
        rw [if_pos ⟨h2, hne⟩]
      exact ⟨⟨_, hu, rfl⟩, by simp only [step, hu]⟩

/-- C9, witness: a concrete update whose body carries `description: null`;
the stored description becomes NULL while the absent title is preserved. -/
theorem c9_witness :
    ({ sampleTodo with description := none, updated_at := 7 } : Todo).description = none
    ∧ ({ sampleTodo with description := none, updated_at := 7 } : Todo).title
        = sampleTodo.title := by
  have h := c9_present_null_overwrites.1 [sampleTodo] 1
      ({ description := some none } : UpdateBody) 7
      [{ sampleTodo with description := none, updated_at := 7 }]
      (({ sampleTodo with description := none, updated_at := 7 } : Todo).to_dict 7)
      sampleTodo { sampleTodo with description := none, updated_at := 7 }
      rfl rfl (List.mem_singleton.mpr rfl) rfl
  exact ⟨h.2.1 rfl, h.1 rfl⟩

/-!  C6: bulk operations.  -/

/-- C6: a bulk request always reports success; a recognized action is
applied to exactly the rows whose id is in the given list (complete leaves
every such row with completed=true, delete removes them, set_priority
leaves every such row at the requested priority; the ORM writes — and the
`onupdate` hook restamps — only the rows with a net change); and an id
with no matching row is silently skipped: adding to the list an id no row
carries does not change the outcome at all. -/
theorem c6_bulk (db : List Todo) (data : BulkBody) (now : Nat) :
    (bulk_action db data now).2 = true
    ∧ (jsonGet data.action none = some "complete" →
        (bulk_action db data now).1
          = db.map (fun t => if t.id ∈ data.todo_ids ∧ t.completed ≠ some true then
              { t with completed := some true, updated_at := now } else t)
        ∧ ∀ t2 ∈ (bulk_action db data now).1, t2.id ∈ data.todo_ids →
            t2.completed = some true)
    ∧ (jsonGet data.action none = some "delete" →
        (bulk_action db data now).1
          = db.filter (fun t => !(decide (t.id ∈ data.todo_ids))))
    ∧ (jsonGet data.action none = some "set_priority" →
        (bulk_action db data now).1
          = db.map (fun t =>
              if t.id ∈ data.todo_ids
                  ∧ t.priority ≠ jsonGet data.priority (some "medium") then
                { t with priority := jsonGet data.priority (some "medium"),
                         updated_at := now } else t)
        ∧ ∀ t2 ∈ (bulk_action db data now).1, t2.id ∈ data.todo_ids →
            t2.priority = jsonGet data.priority (some "medium"))
    ∧ (∀ j, (∀ t ∈ db, t.id ≠ j) →
        bulk_action db { data with todo_ids := j :: data.todo_ids } now
          = bulk_action db data now) := by
  refine ⟨rfl, ?_, ?_, ?_, ?_⟩
  · intro h
    refine ⟨by unfold bulk_action; simp only [h], ?_⟩
    intro t2 ht2 hid
    unfold bulk_action at ht2
    simp only [h] at ht2
    rcases List.mem_map.mp ht2 with ⟨x, hx, hfx⟩
    by_cases hc : x.id ∈ data.todo_ids ∧ x.completed ≠ some true
    · rw [if_pos hc] at hfx
      subst hfx
      rfl
    · rw [if_neg hc] at hfx
      subst hfx
      rcases not_and_or.mp hc with hc2 | hc2
      · exact absurd hid hc2
      · exact not_not.mp hc2
  · intro h
    unfold bulk_action
    simp only [h]
  · intro h
    refine ⟨by unfold bulk_action; simp only [h], ?_⟩
    intro t2 ht2 hid
    unfold bulk_action at ht2
    simp only [h] at ht2
    rcases List.mem_map.mp ht2 with ⟨x, hx, hfx⟩
    by_cases hc : x.id ∈ data.todo_ids
        ∧ x.priority ≠ jsonGet data.priority (some "medium")
    · rw [if_pos hc] at hfx
      subst hfx
      rfl
    · rw [if_neg hc] at hfx
      subst hfx
      rcases not_and_or.mp hc with hc2 | hc2
      · exact absurd hid hc2
      · exact not_not.mp hc2
  · intro j hj
    unfold bulk_action
    dsimp only
    congr 1
    split
    · exact List.map_congr_left fun t ht =>
        if_congr (by simp [hj t ht]) rfl rfl
    · exact List.filter_congr fun t ht => by simp [hj t ht]
    · exact List.map_congr_left fun t ht =>
        if_congr (by simp [hj t ht]) rfl rfl
    · rfl

/-- C6, witness: completing ids 1 and 999 on a one-row table whose row 1
is not yet completed mutates that row, skips 999 without error, and
reports success. -/
theorem c6_witness :
    (bulk_action [sampleTodo]
        { action := some (some "complete"), todo_ids := [1, 999] } 9).1
      = [{ sampleTodo with completed := some true, updated_at := 9 }]
    ∧ (bulk_action [sampleTodo]
        { action := some (some "complete"), todo_ids := [1, 999] } 9).2 = true := by
  have h := c6_bulk [sampleTodo]
      { action := some (some "complete"), todo_ids := [1, 999] } 9
  refine ⟨?_, h.1⟩
  rw [(h.2.1 rfl).1]
  decide

/-!  C7: the stats endpoint.  -/

/-- C7: the stats object counts the whole table, the rows with
completed=true, pending as total minus completed (so pending and completed
partition the total whenever no completed column is NULL — and always sum
back to total since the filtered count never exceeds the length), the
overdue rows (due date set and past, completed=false), and one per-category
entry for each distinct category value with its count; on the empty table
every count is 0 and the category mapping is empty. -/
theorem c7_stats (db : List Todo) (now : Nat) :
    (get_stats db now).total = db.length
    ∧ (get_stats db now).completed = db.countP (fun t => t.completed == some true)
    ∧ (get_stats db now).pending
        = db.length - db.countP (fun t => t.completed == some true)
    ∧ (get_stats db now).pending + (get_stats db now).completed
        = (get_stats db now).total
    ∧ (get_stats db now).overdue = db.countP (fun t => overdueB now t)
    ∧ (∀ c n, (c, n) ∈ (get_stats db now).categories ↔
        ((∃ t ∈ db, t.category = c)
          ∧ n = db.countP (fun t => t.category == c)))
    ∧ ((get_stats db now).categories.map Prod.fst).Nodup
    ∧ get_stats [] now
        = { total := 0, completed := 0, pending := 0, overdue := 0, categories := [] } := by
  refine ⟨rfl, ?_, ?_, ?_, ?_, ?_, ?_, rfl⟩
  · rw [List.countP_eq_length_filter]
    rfl
  · rw [List.countP_eq_length_filter]
    rfl
  · show db.length - (db.filter (fun t => t.completed == some true)).length
        + (db.filter (fun t => t.completed == some true)).length = db.length
    exact Nat.sub_add_cancel (List.length_filter_le _ _)
  · rw [List.countP_eq_length_filter]
    rfl
  · intro c n
    show (c, n) ∈ (db.map Todo.category).dedup.map
        (fun c => (c, (db.filter (fun t => t.category == c)).length)) ↔ _
    rw [List.mem_map]
    constructor
    · rintro ⟨a, ha, heq⟩
      rw [Prod.mk.injEq] at heq
      obtain ⟨rfl, rfl⟩ := heq
      rcases List.mem_map.mp (List.mem_dedup.mp ha) with ⟨t, ht, rfl⟩
      exact ⟨⟨t, ht, rfl⟩, (List.countP_eq_length_filter _ _).symm ▸ rfl⟩
    · rintro ⟨⟨t, ht, rfl⟩, rfl⟩
      refine ⟨t.category, List.mem_dedup.mpr (List.mem_map_of_mem Todo.category ht), ?_⟩
      rw [Prod.mk.injEq]
      exact ⟨rfl, (List.countP_eq_length_filter _ _).symm⟩
  · show ((db.map Todo.category).dedup.map
        (fun c => (c, (db.filter (fun t => t.category == c)).length))).map Prod.fst |>.Nodup
    rw [List.map_map]
    have : (Prod.fst ∘ fun c : Option String =>
        (c, (db.filter (fun t => t.category == c)).length)) = id := rfl
    rw [this, List.map_id]
    exact List.nodup_dedup _

/-- C7, witness: the empty-collection clause of the stats theorem at a
concrete evaluation time. -/
theorem c7_witness :
    get_stats [] 42
      = { total := 0, completed := 0, pending := 0, overdue := 0, categories := [] } :=
  (c7_stats [] 42).2.2.2.2.2.2.2

/-!  C5: the priority sort.  -/

/-- The comparison of the priority sort is transitive. -/
theorem lePriority_trans : ∀ a b c : Todo,
    lePriority a b → lePriority b c → lePriority a c := by
  intro a b c hab hbc
  simp only [lePriority, decide_eq_true_eq] at hab hbc ⊢
  omega

/-- The comparison of the priority sort is total. -/
theorem lePriority_total : ∀ a b : Todo, lePriority a b || lePriority b a := by
  intro a b
  simp only [lePriority]
  rcases Nat.le_total (priority_order a.priority) (priority_order b.priority) with h | h
  · simp [h]
  · simp [h]

/-- C5: listing with sort=priority returns a permutation of the filtered
records that is sorted by the rank high=1, medium=2, low=3, anything
else=4 (so all high precede all medium precede all low precede any other
value), and the sort is stable: two filtered records of equal rank keep
their relative order from the underlying iteration. -/
theorem c5_priority_sort (db : List Todo) (filter_by category : String) (now : Nat) :
    List.Perm (get_todos db filter_by category "priority" now)
        (filterTodos db filter_by category now)
    ∧ (get_todos db filter_by category "priority" now).Pairwise
        (fun a b => priority_order a.priority ≤ priority_order b.priority)
    ∧ (∀ a b, priority_order a.priority = priority_order b.priority →
        List.Sublist [a, b] (filterTodos db filter_by category now) →
        List.Sublist [a, b] (get_todos db filter_by category "priority" now))
    ∧ priority_order (some "high") = 1
    ∧ priority_order (some "medium") = 2
    ∧ priority_order (some "low") = 3
    ∧ (∀ p, p ≠ some "high" → p ≠ some "medium" → p ≠ some "low" →
        priority_order p = 4) := by
  have hget : get_todos db filter_by category "priority" now
      = (filterTodos db filter_by category now).mergeSort lePriority := by
    unfold get_todos
    rw [if_pos rfl]
  refine ⟨?_, ?_, ?_, rfl, rfl, rfl, ?_⟩
  · rw [hget]
    exact List.mergeSort_perm _ _
  · rw [hget]
    have hp := List.sorted_mergeSort lePriority_trans lePriority_total
      (filterTodos db filter_by category now)
    exact hp.imp fun h => by simpa [lePriority, decide_eq_true_eq] using h
  · intro a b hab hsub
    rw [hget]
    refine List.sublist_mergeSort lePriority_trans lePriority_total ?_ hsub
    refine List.Pairwise.cons ?_ (List.pairwise_singleton _ _)
    intro x hx
    rw [List.mem_singleton.mp hx]
    simp [lePriority, hab]
  · intro p h1 h2 h3
    rcases p with _ | s
    · rfl
    · unfold priority_order
      split <;> simp_all

/-- C5, witness: the rank of an unrecognized priority value, via the sort
theorem applied to a concrete listing. -/
theorem c5_witness : priority_order (some "urgent") = 4 :=
  (c5_priority_sort [] "all" "all" 0).2.2.2.2.2.2 (some "urgent")
    (by decide) (by decide) (by decide)

/-!  C4: the pending/completed partition.  -/

/-- Helper: the completed and pending filters split any list whose
completed column is never NULL. -/
theorem filter_completed_split {l : List Todo} (h : ∀ t ∈ l, t.completed ≠ none) :
    List.Perm (l.filter (fun t => t.completed == some false)
      ++ l.filter (fun t => t.completed == some true)) l := by
  have hc : ∀ t ∈ l, (t.completed == some true) = !(t.completed == some false) := by
    intro t ht
    cases hco : t.completed with
    | none => exact absurd hco (h t ht)
    | some b => cases b <;> rfl
  rw [List.filter_congr hc]
  exact List.filter_append_perm _ l

/-- Helper: the listing is a permutation of the filtered rows whatever the
sort parameter is. -/
theorem get_todos_perm (db : List Todo) (f c s : String) (now : Nat) :
    List.Perm (get_todos db f c s now) (filterTodos db f c now) := by
  unfold get_todos
  by_cases h1 : s = "priority"
  · rw [if_pos h1]
    exact List.mergeSort_perm _ _
  · rw [if_neg h1]
    by_cases h2 : s = "due_date"
    · rw [if_pos h2]
      exact List.mergeSort_perm _ _
    · rw [if_neg h2]
      exact List.mergeSort_perm _ _

/-- Helper: filter=pending narrows filter=all by completed=false. -/
theorem filterTodos_pending_eq (db : List Todo) (category : String) (now : Nat) :
    filterTodos db "pending" category now
      = (filterTodos db "all" category now).filter
          (fun t => t.completed == some false) := by
  by_cases hcat : category ≠ "all"
  · show (if category ≠ "all"
        then (db.filter (fun t => t.completed == some false)).filter
          (fun t => t.category == some category)
        else db.filter (fun t => t.completed == some false))
      = (if category ≠ "all"
        then db.filter (fun t => t.category == some category) else db).filter
          (fun t => t.completed == some false)
    rw [if_pos hcat, if_pos hcat, List.filter_filter, List.filter_filter]
    exact List.filter_congr fun t _ => Bool.and_comm _ _
  · rw [not_not] at hcat
    subst hcat
    rfl

/-- Helper: filter=completed narrows filter=all by completed=true. -/
theorem filterTodos_completed_eq (db : List Todo) (category : String) (now : Nat) :
    filterTodos db "completed" category now
      = (filterTodos db "all" category now).filter
          (fun t => t.completed == some true) := by
  by_cases hcat : category ≠ "all"
  · show (if category ≠ "all"
        then (db.filter (fun t => t.completed == some true)).filter
          (fun t => t.category == some category)
        else db.filter (fun t => t.completed == some true))
      = (if category ≠ "all"
        then db.filter (fun t => t.category == some category) else db).filter
          (fun t => t.completed == some true)
    rw [if_pos hcat, if_pos hcat, List.filter_filter, List.filter_filter]
    exact List.filter_congr fun t _ => Bool.and_comm _ _
  · rw [not_not] at hcat
    subst hcat
    rfl

/-- Helper: every record listed under filter=all is in the table. -/
theorem mem_filterTodos_all {db : List Todo} {c : String} {now : Nat} {t : Todo}
    (h : t ∈ filterTodos db "all" c now) : t ∈ db := by
  by_cases hcat : c ≠ "all"
  · have h2 : t ∈ (if c ≠ "all"
        then db.filter (fun u => u.category == some c) else db) := h
    rw [if_pos hcat] at h2
    exact (List.mem_filter.mp h2).1
  · rw [not_not] at hcat
    subst hcat
    exact h

/-- C4, counterexample to the claim as stated: a snapshot holding one row
whose completed column is NULL (reachable via an update body with
`completed: null`).  SQL equality with NULL never holds, so the row shows
up under neither filter=pending nor filter=completed, yet it is returned
under filter=all: the union of the two is not the whole listing. -/
theorem c4_counterexample :
    get_todos [nullCompletedTodo] "pending" "all" "created_at" 0 = []
    ∧ get_todos [nullCompletedTodo] "completed" "all" "created_at" 0 = []
    ∧ get_todos [nullCompletedTodo] "all" "all" "created_at" 0 = [nullCompletedTodo]
    ∧ (([] : List Todo) ++ [] ≠ [nullCompletedTodo]) := by
  refine ⟨?_, ?_, ?_, by decide⟩
  · show ([] : List Todo).mergeSort leCreatedDesc = []
    exact List.mergeSort_nil
  · show ([] : List Todo).mergeSort leCreatedDesc = []
    exact List.mergeSort_nil
  · show [nullCompletedTodo].mergeSort leCreatedDesc = [nullCompletedTodo]
    exact List.mergeSort_singleton nullCompletedTodo

/-- C4, amended: over any snapshot in which no record's completed column
is NULL, the records listed under filter=pending and filter=completed are
disjoint and together are exactly those listed under filter=all (same
category narrowing, any sort): the concatenation of the two listings is a
permutation of the filter=all listing.  Disjointness holds
unconditionally. -/
theorem c4_pending_completed_split (db : List Todo) (category sort_by : String)
    (now : Nat) (h : ∀ t ∈ db, t.completed ≠ none) :
    List.Perm (get_todos db "pending" category sort_by now
        ++ get_todos db "completed" category sort_by now)
      (get_todos db "all" category sort_by now)
    ∧ ∀ t, t ∈ get_todos db "pending" category sort_by now →
        t ∉ get_todos db "completed" category sort_by now := by
  constructor
  · have hp : List.Perm (get_todos db "pending" category sort_by now
          ++ get_todos db "completed" category sort_by now)
        (filterTodos db "pending" category now
          ++ filterTodos db "completed" category now) :=
      (get_todos_perm db "pending" category sort_by now).append
        (get_todos_perm db "completed" category sort_by now)
    refine hp.trans ?_
    rw [filterTodos_pending_eq, filterTodos_completed_eq]
    have hsplit := filter_completed_split
      (fun t ht => h t (mem_filterTodos_all ht))
      (l := filterTodos db "all" category now)
    exact hsplit.trans (get_todos_perm db "all" category sort_by now).symm
  · intro t hpend hcomp
    have h1 : t.completed = some false := by
      have hm := (get_todos_perm db "pending" category sort_by now).mem_iff.mp hpend
      rw [filterTodos_pending_eq] at hm
      simpa using (List.mem_filter.mp hm).2
    have h2 : t.completed = some true := by
      have hm := (get_todos_perm db "completed" category sort_by now).mem_iff.mp hcomp
      rw [filterTodos_completed_eq] at hm
      simpa using (List.mem_filter.mp hm).2
    rw [h1] at h2
    cases h2

/-- C4, witness: the amended theorem applied to a concrete one-row
snapshot with a non-NULL completed column. -/
theorem c4_witness :
    List.Perm (get_todos [sampleTodo] "pending" "all" "created_at" 0
        ++ get_todos [sampleTodo] "completed" "all" "created_at" 0)
      (get_todos [sampleTodo] "all" "all" "created_at" 0) :=
  (c4_pending_completed_split [sampleTodo] "all" "created_at" 0 (by decide)).1

/-!  C8: timestamp invariants.  -/

/-- Every row of the table after one request is either carried over from
the old table — same id, same `created_at`, `updated_at` either untouched
or restamped to `now` — or freshly inserted with both stamps `now` and
the fresh id. -/
theorem step_shape {db : List Todo} {op : Op} {now : Nat} :
    ∀ t2 ∈ step db op now,
      (∃ t ∈ db, t2.id = t.id ∧ t2.created_at = t.created_at
        ∧ (t2.updated_at = t.updated_at ∨ t2.updated_at = now))
      ∨ (t2.created_at = now ∧ t2.updated_at = now ∧ t2.id = freshId db) := by
  intro t2 ht2
  cases op with
  | create d =>
    cases hc : create_todo db d now with
    | error e =>
      rw [show step db (.create d) now = db from by simp only [step, hc]] at ht2
      exact Or.inl ⟨t2, ht2, rfl, rfl, Or.inl rfl⟩
    | ok p =>
      obtain ⟨db2, dd⟩ := p
      rcases create_todo_ok hc with ⟨todo, hdb2, hid, hcr, hup⟩
      rw [show step db (.create d) now = db2 from by simp only [step, hc]] at ht2
      rw [hdb2] at ht2
      rcases List.mem_append.mp ht2 with hmem | hmem
      · exact Or.inl ⟨t2, hmem, rfl, rfl, Or.inl rfl⟩
      · rw [List.mem_singleton.mp hmem]
        exact Or.inr ⟨hcr, hup, hid⟩
  | update i d =>
    cases hu : update_todo db i d now with
    | error e =>
      rw [show step db (.update i d) now = db from by simp only [step, hu]] at ht2
      exact Or.inl ⟨t2, ht2, rfl, rfl, Or.inl rfl⟩
    | ok p =>
      obtain ⟨db2, dd⟩ := p
      rcases update_todo_ok hu with ⟨t, tNew, hf, ha, hdb2, _⟩
      obtain ⟨hnid, hncr, hnup, _⟩ := applyUpdate_ok_fields ha
      rw [show step db (.update i d) now = db2 from by simp only [step, hu]] at ht2
      rw [hdb2] at ht2
      rcases List.mem_map.mp ht2 with ⟨x, hx, hfx⟩
      by_cases hxi : (x.id == i) = true
      · rw [if_pos hxi] at hfx
        subst hfx
        exact Or.inl ⟨t, List.mem_of_find?_eq_some hf, hnid, hncr, Or.inr hnup⟩
      · rw [if_neg hxi] at hfx
        subst hfx
        exact Or.inl ⟨x, hx, rfl, rfl, Or.inl rfl⟩
  | delete i =>
    cases hdel : delete_todo db i with
    | error e =>
      rw [show step db (.delete i) now = db from by simp only [step, hdel]] at ht2
      exact Or.inl ⟨t2, ht2, rfl, rfl, Or.inl rfl⟩
    | ok db2 =>
      rw [show step db (.delete i) now = db2 from by simp only [step, hdel]] at ht2
      rw [delete_todo_ok hdel] at ht2
      exact Or.inl ⟨t2, List.mem_of_mem_filter ht2, rfl, rfl, Or.inl rfl⟩
  | bulk d =>
    have hb : step db (.bulk d) now = (bulk_action db d now).1 := rfl
    rw [hb] at ht2
    unfold bulk_action at ht2
    dsimp only at ht2
    revert ht2
    split
    · intro ht2
      rcases List.mem_map.mp ht2 with ⟨x, hx, hfx⟩
      by_cases hm : x.id ∈ d.todo_ids ∧ x.completed ≠ some true
      · rw [if_pos hm] at hfx
        subst hfx
        exact Or.inl ⟨x, hx, rfl, rfl, Or.inr rfl⟩
      · rw [if_neg hm] at hfx
        subst hfx
        exact Or.inl ⟨x, hx, rfl, rfl, Or.inl rfl⟩
    · intro ht2
      exact Or.inl ⟨t2, List.mem_of_mem_filter ht2, rfl, rfl, Or.inl rfl⟩
    · intro ht2
      rcases List.mem_map.mp ht2 with ⟨x, hx, hfx⟩
      by_cases hm : x.id ∈ d.todo_ids
          ∧ x.priority ≠ jsonGet d.priority (some "medium")
      · rw [if_pos hm] at hfx
        subst hfx
        exact Or.inl ⟨x, hx, rfl, rfl, Or.inr rfl⟩
      · rw [if_neg hm] at hfx
        subst hfx
        exact Or.inl ⟨x, hx, rfl, rfl, Or.inl rfl⟩
    · intro ht2
      exact Or.inl ⟨t2, ht2, rfl, rfl, Or.inl rfl⟩

/-- No request introduces a duplicate primary key. -/
theorem step_ids_nodup {db : List Todo} {op : Op} {now : Nat}
    (h : IdsNodup db) : IdsNodup (step db op now) := by
  cases op with
  | create d =>
    cases hc : create_todo db d now with
    | error e =>
      rw [show step db (.create d) now = db from by simp only [step, hc]]
      exact h
    | ok p =>
      obtain ⟨db2, dd⟩ := p
      rcases create_todo_ok hc with ⟨todo, hdb2, hid, _, _⟩
      rw [show step db (.create d) now = db2 from by simp only [step, hc]]
      rw [hdb2]
      unfold IdsNodup
      rw [List.map_append]
      rw [List.nodup_append]
      refine ⟨h, List.nodup_singleton _, ?_⟩
      intro x hx hx2
      rcases List.mem_map.mp hx with ⟨t, ht, rfl⟩
      rw [List.map_singleton, List.mem_singleton] at hx2
      exact absurd (hx2.trans hid) (Nat.ne_of_lt (id_lt_freshId ht))
  | update i d =>
    cases hu : update_todo db i d now with
    | error e =>
      rw [show step db (.update i d) now = db from by simp only [step, hu]]
      exact h
    | ok p =>
      obtain ⟨db2, dd⟩ := p
      rcases update_todo_ok hu with ⟨t, tNew, hf, ha, hdb2, _⟩
      obtain ⟨hnid, _, _, _⟩ := applyUpdate_ok_fields ha
      have hti : t.id = i := by
        have := List.find?_some hf
        simpa using this
      rw [show step db (.update i d) now = db2 from by simp only [step, hu]]
      rw [hdb2]
      unfold IdsNodup
      rw [List.map_map]
      have : (Todo.id ∘ fun u => if u.id == i then tNew else u) = Todo.id := by
        funext u
        by_cases hxi : (u.id == i) = true
        · have hui : u.id = i := by simpa using hxi
          simp only [Function.comp, if_pos hxi]
          rw [hnid, hti, hui]
        · simp only [Function.comp, if_neg hxi]
      rw [this]
      exact h
  | delete i =>
    cases hdel : delete_todo db i with
    | error e =>
      rw [show step db (.delete i) now = db from by simp only [step, hdel]]
      exact h
    | ok db2 =>
      rw [show step db (.delete i) now = db2 from by simp only [step, hdel]]
      rw [delete_todo_ok hdel]
      exact h.sublist (List.Sublist.map Todo.id (List.filter_sublist db))
  | bulk d =>
    have hb : step db (.bulk d) now = (bulk_action db d now).1 := rfl
    rw [hb]
    unfold bulk_action
    dsimp only
    split
    · unfold IdsNodup
      rw [List.map_map]
      have : (Todo.id ∘ fun t =>
          if t.id ∈ d.todo_ids ∧ t.completed ≠ some true then
            { t with completed := some true, updated_at := now } else t) = Todo.id := by
        funext u
        by_cases hm : u.id ∈ d.todo_ids ∧ u.completed ≠ some true
        · simp only [Function.comp, if_pos hm]
        · simp only [Function.comp, if_neg hm]
      rw [this]
      exact h
    · exact h.sublist (List.Sublist.map Todo.id (List.filter_sublist db))
    · unfold IdsNodup
      rw [List.map_map]
      have : (Todo.id ∘ fun t =>
          if t.id ∈ d.todo_ids ∧ t.priority ≠ jsonGet d.priority (some "medium") then
            { t with priority := jsonGet d.priority (some "medium"), updated_at := now }
          else t) = Todo.id := by
        funext u
        by_cases hm : u.id ∈ d.todo_ids
            ∧ u.priority ≠ jsonGet d.priority (some "medium")
        · simp only [Function.comp, if_pos hm]
        · simp only [Function.comp, if_neg hm]
      rw [this]
      exact h
    · exact h

/-- One request at a time `now` not before the clock keeps the table
well-formed at time `now`. -/
theorem step_good {db : List Todo} {clk : Nat} {op : Op} {now : Nat}
    (hg : GoodDb db clk) (hle : clk ≤ now) : GoodDb (step db op now) now := by
  obtain ⟨hnodup, hord, hup⟩ := hg
  refine ⟨step_ids_nodup hnodup, ?_, ?_⟩
  · intro t2 ht2
    rcases step_shape t2 ht2 with ⟨t, ht, _, hcr, hups⟩ | ⟨hcr, hups, _⟩
    · rcases hups with h2 | h2
      · rw [hcr, h2]
        exact hord t ht
      · rw [hcr, h2]
        exact Nat.le_trans (Nat.le_trans (hord t ht) (hup t ht)) hle
    · rw [hcr, hups]
  · intro t2 ht2
    rcases step_shape t2 ht2 with ⟨t, ht, _, _, hups⟩ | ⟨_, hups, _⟩
    · rcases hups with h2 | h2
      · rw [h2]
        exact Nat.le_trans (hup t ht) hle
      · rw [h2]
    · rw [hups]

/-- Along any trace with a nondecreasing clock, the table stays
well-formed; in particular `updated_at` never drops below `created_at`. -/
theorem run_stamps : ∀ (ops : List (Op × Nat)) {db : List Todo} {clk : Nat},
    GoodDb db clk → ClockMono clk ops → StampsOrdered (run db ops)
  | [], _, _, hg, _ => hg.2.1
  | _ :: rest, _, _, hg, hm => run_stamps rest (step_good hg hm.1) hm.2

/-- C8, counterexample to the claim as stated: a bulk complete that
targets a row that is already completed.  The ORM finds no net change for
that row, emits no UPDATE, the `onupdate` hook never fires, and the row
keeps its old `updated_at` — the call completes successfully, yet the
targeted surviving record's `updated_at` is not refreshed to the server
clock (0, not 9). -/
theorem c8_counterexample :
    bulk_action [doneTodo]
        ({ action := some (some "complete"), todo_ids := [3] } : BulkBody) 9
      = ([doneTodo], true)
    ∧ doneTodo.completed = some true
    ∧ doneTodo.updated_at ≠ 9 := by
  refine ⟨by decide, rfl, by decide⟩

/-- C8, amended: over any table with unique ids, no request changes the
`created_at` of a row it carries over (tracked by id); along any trace of
requests served at nondecreasing server times, every row always satisfies
`created_at ≤ updated_at`; a successful PUT restamps the updated row's
`updated_at` to the server time of the request; and bulk complete /
set_priority restamp `updated_at` exactly for the targeted rows they
actually change — a targeted row already in the requested state is not
written and keeps its old `updated_at` (and its old `created_at`). -/
theorem c8_timestamps :
    (∀ (db : List Todo) (op : Op) (now : Nat), IdsNodup db →
      ∀ t ∈ db, ∀ t2 ∈ step db op now, t2.id = t.id → t2.created_at = t.created_at)
    ∧ (∀ (db : List Todo) (clk : Nat) (ops : List (Op × Nat)),
        GoodDb db clk → ClockMono clk ops → StampsOrdered (run db ops))
    ∧ (∀ (db : List Todo) (i : Nat) (data : UpdateBody) (now : Nat)
        (db2 : List Todo) (d : TodoDict), update_todo db i data now = .ok (db2, d) →
        ∀ t2 ∈ db2, t2.id = i → t2.updated_at = now)
    ∧ (∀ (db : List Todo) (data : BulkBody) (now : Nat), ∀ t ∈ db,
        t.id ∈ data.todo_ids →
        (jsonGet data.action none = some "complete" →
          (t.completed ≠ some true →
            ({ t with completed := some true, updated_at := now } : Todo)
              ∈ (bulk_action db data now).1)
          ∧ (t.completed = some true → t ∈ (bulk_action db data now).1))
        ∧ (jsonGet data.action none = some "set_priority" →
          (t.priority ≠ jsonGet data.priority (some "medium") →
            ({ t with
                priority := jsonGet data.priority (some "medium"),
                updated_at := now } : Todo) ∈ (bulk_action db data now).1)
          ∧ (t.priority = jsonGet data.priority (some "medium") →
            t ∈ (bulk_action db data now).1))) := by
  refine ⟨?_, ?_, ?_, ?_⟩
  · intro db op now hnodup t ht t2 ht2 hid
    rcases step_shape t2 ht2 with ⟨t3, ht3, hid3, hcr3, _⟩ | ⟨_, _, hidf⟩
    · have : t = t3 := List.inj_on_of_nodup_map hnodup ht ht3 (hid ▸ hid3 : t.id = t3.id)
      rw [hcr3, this]
    · exact absurd (hid ▸ hidf : t.id = freshId db)
        (Nat.ne_of_lt (id_lt_freshId ht))
  · intro db clk ops hg hm
    exact run_stamps ops hg hm
  · intro db i data now db2 d hok t2 ht2 hid
    rcases update_todo_ok hok with ⟨t, tNew, hf, ha, hdb2, _⟩
    obtain ⟨_, _, hnup, _⟩ := applyUpdate_ok_fields ha
    have : t2 = tNew := mem_map_if_eq (hdb2 ▸ ht2) hid
    rw [this]
    exact hnup
  · intro db data now t ht hid
    constructor
    · intro hact
      have hb : (bulk_action db data now).1
          = db.map (fun u => if u.id ∈ data.todo_ids ∧ u.completed ≠ some true then
              { u with completed := some true, updated_at := now } else u) := by
        unfold bulk_action
        simp only [hact]
      constructor
      · intro hch
        rw [hb]
        exact List.mem_map.mpr ⟨t, ht, if_pos ⟨hid, hch⟩⟩
      · intro hch
        rw [hb]
        exact List.mem_map.mpr ⟨t, ht, if_neg (fun hc => hc.2 hch)⟩
    · intro hact
      have hb : (bulk_action db data now).1
          = db.map (fun u =>
              if u.id ∈ data.todo_ids
                  ∧ u.priority ≠ jsonGet data.priority (some "medium") then
                { u with
                  priority := jsonGet data.priority (some "medium"),
                  updated_at := now }
              else u) := by
        unfold bulk_action
        simp only [hact]
      constructor
      · intro hch
        rw [hb]
        exact List.mem_map.mpr ⟨t, ht, if_pos ⟨hid, hch⟩⟩
      · intro hch
        rw [hb]
        exact List.mem_map.mpr ⟨t, ht, if_neg (fun hc => hc.2 hch)⟩

/-- C8, witness: completing the fixture row by a concrete PUT at server
time 7 restamps its `updated_at` to 7. -/
theorem c8_witness :
    ({ sampleTodo with completed := some true, updated_at := 7 } : Todo).updated_at
      = 7 := by
  have h := c8_timestamps.2.2.1 [sampleTodo] 1
      ({ completed := some (some true) } : UpdateBody) 7
      [{ sampleTodo with completed := some true, updated_at := 7 }]
      (({ sampleTodo with completed := some true, updated_at := 7 } : Todo).to_dict 7)
      rfl
  exact h _ (List.mem_singleton.mpr rfl) rfl

end TodoApp
